import Mathlib

/-!
Shallow embedding of the data-retrieval and normalization core of
`src/streamlit_app.py`: the remote dataset opener (`_open_ds`), the field
standardizer (`_standardize_anom_field`) and the bounding-box selection
part of `load_anomaly`.

Modelling choices:
* Coordinate labels and data values are `Int` (the grids are numeric; no
  claim depends on fractional degrees).
* An xarray `DataArray` is a list of named dimensions, each carrying its
  coordinate labels, together with nested data (`NDData`) whose nesting
  depth follows the dimension order.
* Label-based slice selection (`da.sel(dim=slice(lo, hi))`) follows the
  pandas semantics for monotonic indexes: on an ascending index it keeps
  the labels `x` with `lo ≤ x ≤ hi`; on a descending index it keeps the
  labels `x` with `hi ≤ x ≤ lo` (so `slice(lo, hi)` with `lo < hi` on a
  descending index selects nothing); a non-monotonic index cannot be
  sliced (pandas raises), modelled as `none`.
* Scalar label selection (`.sel(time=t, method="nearest")`, depth
  selection) removes the selected dimension, matching the final effect of
  the source's `sel` + `squeeze(drop=True)` combination on scalar coords.
* Fallible operations return `Option` (or `Except` for the opener, whose
  error values model Python exceptions).
-/

/-- Nested data of an xarray variable: a scalar, or a list of sub-arrays
(one nesting level per dimension). -/
inductive NDData where
  | scalar (v : Int)
  | arr (xs : List NDData)

/-- Select index `j` along the axis at nesting depth `d`, removing that
axis (the effect of a scalar `.sel` on the values). -/
def NDData.selAt : Nat → Nat → NDData → NDData
  | 0, j, .arr xs => xs.getD j (.scalar 0)
  | 0, _, .scalar v => .scalar v
  | d + 1, j, .arr xs => .arr (xs.map (NDData.selAt d j))
  | _ + 1, _, .scalar v => .scalar v

/-- Keep the entries of `xs` whose position satisfies `keep`. -/
def keepIdx (keep : Nat → Bool) (xs : List NDData) : List NDData :=
  (xs.enum.filter (fun p => keep p.1)).map (fun p => p.2)

/-- Keep, along the axis at nesting depth `d`, only the positions
satisfying `keep` (the effect of a slice `.sel` on the values). -/
def NDData.filterAt : Nat → (Nat → Bool) → NDData → NDData
  | 0, keep, .arr xs => .arr (keepIdx keep xs)
  | 0, _, .scalar v => .scalar v
  | d + 1, keep, .arr xs => .arr (xs.map (NDData.filterAt d keep))
  | _ + 1, _, .scalar v => .scalar v

/-- Concatenate two arrays along the axis at nesting depth `d`
(the effect of `xr.concat` on the values). -/
def NDData.appendAt : Nat → NDData → NDData → NDData
  | 0, .arr xs, .arr ys => .arr (xs ++ ys)
  | d + 1, .arr xs, .arr ys => .arr (List.zipWith (NDData.appendAt d) xs ys)
  | _, x, _ => x

/-- An xarray `DataArray`: ordered dimensions, each with its coordinate
labels, and the nested values. -/
structure DataArray where
  dims : List (String × List Int)
  data : NDData

/-- The ordered dimension names of a `DataArray`. -/
def DataArray.dimNames (da : DataArray) : List String :=
  da.dims.map (fun p => p.1)

/-- The coordinate labels of the dimension called `name`, if present. -/
def DataArray.coordsOf (da : DataArray) (name : String) : Option (List Int) :=
  match List.findIdx? (fun p => p.1 == name) da.dims with
  | none => none
  | some i => (da.dims.get? i).map (fun p => p.2)

/-- An xarray `Dataset`: named variables plus the shared `time`
coordinate (`ds["time"]`). -/
structure Dataset where
  vars : List (String × DataArray)
  time : List Int

/-- Variable access `ds[name]`: lookup, `none` models the `KeyError`. -/
def lookupVar (ds : Dataset) (name : String) : Option DataArray :=
  (ds.vars.find? (fun p => p.1 == name)).map (fun p => p.2)

/-- The call `xr.open_dataset` is modelled as an environment mapping a URL to
either a dataset or an exception code. -/
abbrev OpenEnv := String → Except Nat Dataset

/-- The opener `_open_ds`: try the base URL; on any exception retry once with
`".nc"` appended, surfacing that second attempt's outcome. -/
def open_ds (openDataset : OpenEnv) (url_base : String) : Except Nat Dataset :=
  match openDataset url_base with
  | .ok ds => .ok ds
  | .error _ => openDataset (url_base ++ ".nc")

/-- The URLs `_open_ds` passes to `xr.open_dataset`, in order: the base
URL, then — only when the first attempt raised — the `".nc"`-suffixed
URL. -/
def open_ds_attempts (openDataset : OpenEnv) (url_base : String) : List String :=
  match openDataset url_base with
  | .ok _ => [url_base]
  | .error _ => [url_base, url_base ++ ".nc"]

/-- The depth-dimension candidates tried, in order, by
`_standardize_anom_field`. -/
def depthNames : List String := ["zlev", "depth", "lev"]

/-- Remove the dimension at position `i`, selecting coordinate index `j`
along it (scalar `.sel` on dimension `i`). -/
def DataArray.selIdxAt (da : DataArray) (i j : Nat) : DataArray :=
  { dims := da.dims.eraseIdx i, data := NDData.selAt i j da.data }

/-- The surface-layer step: for the first name of `depthNames` that is a
dimension of `da`, select its first coordinate (`da.sel({d: da[d].values[0]})`);
`none` models the `IndexError` on an empty depth axis. -/
def depthStep (da : DataArray) : Option DataArray :=
  match depthNames.find? (fun d => da.dimNames.contains d) with
  | none => some da
  | some d =>
    match List.findIdx? (fun p => p.1 == d) da.dims with
    | none => none
    | some i =>
      match da.dims.get? i with
      | none => none
      | some p => if p.2.isEmpty then none else some (da.selIdxAt i 0)

/-- One comparison step of the nearest-coordinate scan: keep the
position with the smaller distance to the target (ties towards the
later position, as on an increasing index). -/
def nearestStep (t : Int) (acc : Option (Nat × Nat)) (p : Nat × Int) :
    Option (Nat × Nat) :=
  match acc with
  | none => some (p.1, (p.2 - t).natAbs)
  | some q =>
    if (p.2 - t).natAbs ≤ q.2 then some (p.1, (p.2 - t).natAbs) else some q

/-- Index of the coordinate nearest to `t` (pandas `method="nearest"`). -/
def nearestIdx (c : List Int) (t : Int) : Option Nat :=
  (c.enum.foldl (nearestStep t) none).map (fun q => q.1)

/-- Nearest-time selection `da.sel(time=t, method="nearest")` followed by dropping the
now-scalar time dimension. -/
def selTimeNearest (da : DataArray) (t : Int) : Option DataArray :=
  match List.findIdx? (fun p => p.1 == "time") da.dims with
  | none => none
  | some i =>
    match da.dims.get? i with
    | none => none
    | some p =>
      match nearestIdx p.2 t with
      | none => none
      | some j => some (da.selIdxAt i j)

/-- Remove the axes of `dims` whose size is 1 from the nested values
(`squeeze` on the data). -/
def squeezeData : List (String × List Int) → NDData → NDData
  | [], x => x
  | (_, c) :: rest, .arr xs =>
    if c.length == 1 then squeezeData rest (xs.getD 0 (.scalar 0))
    else .arr (xs.map (squeezeData rest))
  | _ :: _, .scalar v => .scalar v

/-- The squeeze `da.squeeze(drop=True)`: drop every size-1 dimension. -/
def squeezeDrop (da : DataArray) : DataArray :=
  { dims := da.dims.filter (fun p => p.2.length != 1),
    data := squeezeData da.dims da.data }

/-- The coordinate renaming of `_standardize_anom_field`:
`latitude → lat`, `longitude → lon`, all other names unchanged. -/
def renameName (s : String) : String :=
  if s == "latitude" then "lat" else if s == "longitude" then "lon" else s

/-- The rename step: apply `renameName` to every dimension name
(equivalent to building `rename_map` from the present coordinates and
renaming when the map is nonempty). -/
def renameStep (da : DataArray) : DataArray :=
  { dims := da.dims.map (fun p => (renameName p.1, p.2)), data := da.data }

/-- The time clamp of `_standardize_anom_field`: `target` moved to
`min(ds.time)` / `max(ds.time)` when outside the covered range; `none`
when the time coordinate is empty. -/
def clampTime (times : List Int) (target : Int) : Option Int :=
  match times.min?, times.max? with
  | some tmin, some tmax =>
    some (if target < tmin then tmin else if tmax < target then tmax else target)
  | _, _ => none

/-- The standardizer `_standardize_anom_field`: take `ds["anom"]`, select the surface
depth layer if a depth dimension exists, clamp the target time to the
covered range and select the nearest time slice, squeeze, and rename the
coordinates to the canonical `lat`/`lon`. -/
def standardize_anom_field (ds : Dataset) (target_time : Int) : Option DataArray := do
  let da ← lookupVar ds "anom"
  let da ← depthStep da
  let t ← clampTime ds.time target_time
  let da ← selTimeNearest da t
  some (renameStep (squeezeDrop da))

/-- Is the list sorted in ascending order (pandas
`is_monotonic_increasing`)? -/
def isSortedAsc : List Int → Bool
  | [] => true
  | [_] => true
  | x :: y :: rest => decide (x ≤ y) && isSortedAsc (y :: rest)

/-- Is the list sorted in descending order (pandas
`is_monotonic_decreasing`)? -/
def isSortedDesc : List Int → Bool
  | [] => true
  | [_] => true
  | x :: y :: rest => decide (y ≤ x) && isSortedDesc (y :: rest)

/-- Slice selection `da.sel(name=slice(lo, hi))`: label slicing with the pandas
semantics on monotonic indexes (ascending keeps `lo ≤ x ≤ hi`,
descending keeps `hi ≤ x ≤ lo`); `none` when the dimension is absent or
its index is not monotonic. -/
def DataArray.selSlice (da : DataArray) (name : String) (lo hi : Int) :
    Option DataArray :=
  match List.findIdx? (fun p => p.1 == name) da.dims with
  | none => none
  | some i =>
    match da.dims.get? i with
    | none => none
    | some p =>
      let c := p.2
      if isSortedAsc c then
        let keep := fun x : Int => decide (lo ≤ x ∧ x ≤ hi)
        some { dims := da.dims.set i (p.1, c.filter keep),
               data := NDData.filterAt i (fun j => keep (c.getD j 0)) da.data }
      else if isSortedDesc c then
        let keep := fun x : Int => decide (hi ≤ x ∧ x ≤ lo)
        some { dims := da.dims.set i (p.1, c.filter keep),
               data := NDData.filterAt i (fun j => keep (c.getD j 0)) da.data }
      else none

/-- Concatenation `xr.concat([a, b], dim=name)` in the situation the selector uses it:
both arrays share every dimension except the coordinates of `name`,
whose labels and values are concatenated in order. -/
def concatDim (name : String) (a b : DataArray) : Option DataArray :=
  match List.findIdx? (fun p => p.1 == name) a.dims with
  | none => none
  | some i =>
    match List.findIdx? (fun p => p.1 == name) b.dims with
    | none => none
    | some j =>
      if i = j ∧ a.dims.eraseIdx i = b.dims.eraseIdx j then
        match a.dims.get? i, b.dims.get? j with
        | some p, some q =>
          some { dims := a.dims.set i (p.1, p.2 ++ q.2),
                 data := NDData.appendAt i a.data b.data }
        | _, _ => none
      else none

/-- The latitude step of `load_anomaly`'s bbox slicing: the bounds are
ordered ascending before slicing. -/
def latStep (da : DataArray) (lat_min lat_max : Int) : Option DataArray :=
  if lat_min ≤ lat_max then da.selSlice "lat" lat_min lat_max
  else da.selSlice "lat" lat_max lat_min

/-- The longitude step of `load_anomaly`'s bbox slicing: a direct slice
when `lon_min ≤ lon_max`; otherwise (antimeridian crossing) the
concatenation of the `[lon_min, 180]` and `[-180, lon_max]`
sub-selections, in that order. -/
def lonStep (da : DataArray) (lon_min lon_max : Int) : Option DataArray :=
  if lon_min ≤ lon_max then da.selSlice "lon" lon_min lon_max
  else do
    let left ← da.selSlice "lon" lon_min 180
    let right ← da.selSlice "lon" (-180) lon_max
    concatDim "lon" left right

/-- A bounding box `(lat_min, lat_max, lon_min, lon_max)`. -/
structure BBox where
  lat_min : Int
  lat_max : Int
  lon_min : Int
  lon_max : Int

/-- The bbox slicing of `load_anomaly`: identity when no bbox is given,
otherwise the latitude step followed by the longitude step. -/
def bboxSelect (da : DataArray) (bbox : Option BBox) : Option DataArray :=
  match bbox with
  | none => some da
  | some b => do
    let da ← latStep da b.lat_min b.lat_max
    lonStep da b.lon_min b.lon_max

/-- The fixed ERDDAP endpoint of the application. -/
def ERDDAP_URL : String :=
  "https://erddap.aoml.noaa.gov/hdb/erddap/griddap/SST_OI_DAILY_1981_PRESENT_T"

/-- The loader `load_anomaly`: open the fixed endpoint, standardize the anomaly
field at the requested date, and apply the bbox slicing. -/
def load_anomaly (openDataset : OpenEnv) (date : Int) (bbox : Option BBox) :
    Option DataArray :=
  match open_ds openDataset ERDDAP_URL with
  | .error _ => none
  | .ok ds => do
    let da ← standardize_anom_field ds date
    bboxSelect da bbox

/-! ## Opener theorems -/

/-- C7: when the plain form fails and the `.nc`-suffixed form succeeds,
`_open_ds` returns exactly the dataset of the `.nc`-suffixed open. -/
theorem open_ds_fallback_ok (env : OpenEnv) (url : String) (e : Nat) (ds : Dataset)
    (h1 : env url = .error e) (h2 : env (url ++ ".nc") = .ok ds) :
    open_ds env url = .ok ds ∧ open_ds env url = env (url ++ ".nc") := by
  unfold open_ds
  rw [h1]
  exact ⟨h2, rfl⟩

/-- A concrete dataset with no variables, used by the opener witnesses. -/
def dsEmpty : Dataset := { vars := [], time := [0] }

/-- An environment where only the `.nc`-suffixed form of one URL opens. -/
def envFallback : OpenEnv :=
  fun u => if u == "http://srv/data.nc" then .ok dsEmpty else .error 1

theorem open_ds_fallback_ok_witness :
    open_ds envFallback "http://srv/data" = .ok dsEmpty ∧
    open_ds envFallback "http://srv/data" = envFallback ("http://srv/data" ++ ".nc") :=
  open_ds_fallback_ok envFallback "http://srv/data" 1 dsEmpty rfl rfl

/-- C8: when both forms fail, `_open_ds` surfaces an error (that of the
second attempt) and tries exactly the two URLs, in order — one fallback
retry and nothing further. -/
theorem open_ds_both_fail (env : OpenEnv) (url : String) (e1 e2 : Nat)
    (h1 : env url = .error e1) (h2 : env (url ++ ".nc") = .error e2) :
    open_ds env url = .error e2 ∧
    open_ds_attempts env url = [url, url ++ ".nc"] ∧
    (open_ds_attempts env url).length = 2 := by
  unfold open_ds open_ds_attempts
  rw [h1]
  exact ⟨h2, rfl, rfl⟩

/-- An environment where every open attempt raises; the exception code
records which URL was tried. -/
def envAllFail : OpenEnv :=
  fun u => if u == "http://srv/data" then .error 1 else .error 2

theorem open_ds_both_fail_witness :
    open_ds envAllFail "http://srv/data" = .error 2 ∧
    open_ds_attempts envAllFail "http://srv/data" =
      ["http://srv/data", "http://srv/data.nc"] ∧
    (open_ds_attempts envAllFail "http://srv/data").length = 2 :=
  open_ds_both_fail envAllFail "http://srv/data" 1 2 rfl rfl

/-- C10: after any first-attempt exception the opener discards it and
unconditionally appends `".nc"` for the second attempt (also when the
URL already ends in `".nc"`), so the surfaced outcome is entirely that
of the suffixed attempt. -/
theorem open_ds_discards_first_error (env : OpenEnv) (url : String) (e1 : Nat)
    (h1 : env url = .error e1) :
    open_ds env url = env (url ++ ".nc") ∧
    open_ds_attempts env url = [url, url ++ ".nc"] := by
  unfold open_ds open_ds_attempts
  rw [h1]
  exact ⟨rfl, rfl⟩

/-- An environment that always raises, recording nothing. -/
def envRaise : OpenEnv := fun _ => .error 9

theorem open_ds_discards_first_error_witness :
    open_ds envRaise "http://srv/file.nc" = envRaise "http://srv/file.nc.nc" ∧
    open_ds_attempts envRaise "http://srv/file.nc" =
      ["http://srv/file.nc", "http://srv/file.nc.nc"] :=
  open_ds_discards_first_error envRaise "http://srv/file.nc" 9 rfl

/-! ## Latitude-bound symmetry (C5) -/

/-- C5: the bbox selection with `(lat_min, lat_max) = (a, b)` equals the
selection with `(b, a)` — the latitude bounds are re-ordered before
slicing, so their order never matters. -/
theorem bbox_lat_bounds_symm (da : DataArray) (a b lon_min lon_max : Int) :
    bboxSelect da (some ⟨a, b, lon_min, lon_max⟩) =
      bboxSelect da (some ⟨b, a, lon_min, lon_max⟩) := by
  have h : latStep da a b = latStep da b a := by
    unfold latStep
    rcases le_or_lt a b with hab | hab
    · rcases eq_or_lt_of_le hab with rfl | hlt
      · rfl
      · rw [if_pos hab, if_neg (not_le.mpr hlt)]
    · rw [if_neg (not_le.mpr hab), if_pos hab.le]
  simp [bboxSelect, h]

/-! ## Rename step (C4) -/

theorem renameStep_dimNames (da : DataArray) :
    (renameStep da).dimNames = da.dimNames.map renameName := by
  simp [renameStep, DataArray.dimNames]

theorem map_rename_eq_self (l : List (String × List Int))
    (hla : "latitude" ∉ l.map (fun p => p.1))
    (hlo : "longitude" ∉ l.map (fun p => p.1)) :
    l.map (fun p => (renameName p.1, p.2)) = l := by
  induction l with
  | nil => rfl
  | cons x xs ih =>
    simp only [List.map_cons, List.mem_cons, not_or] at hla hlo
    have h1 : (x.1 == "latitude") = false :=
      beq_eq_false_iff_ne.mpr (fun h => hla.1 h.symm)
    have h2 : (x.1 == "longitude") = false :=
      beq_eq_false_iff_ne.mpr (fun h => hlo.1 h.symm)
    have hx : renameName x.1 = x.1 := by
      simp [renameName, h1, h2]
    simp [hx, ih hla.2 hlo.2]

/-- C4: the rename step keeps the data values unchanged and only maps
`latitude`/`longitude` to `lat`/`lon`; on a field already named
`lat`/`lon` it is the identity. -/
theorem rename_step_spec (da : DataArray) :
    ((renameStep da).data = da.data) ∧
    (da.dimNames = ["latitude", "longitude"] →
      (renameStep da).dimNames = ["lat", "lon"]) ∧
    ("latitude" ∉ da.dimNames ∧ "longitude" ∉ da.dimNames →
      renameStep da = da) := by
  refine ⟨rfl, ?_, ?_⟩
  · intro h
    rw [renameStep_dimNames, h]
    rfl
  · intro h
    cases da with
    | mk dims data =>
      simp only [renameStep, DataArray.mk.injEq, and_true]
      exact map_rename_eq_self dims h.1 h.2

/-- A concrete field with the long coordinate names. -/
def daLongNames : DataArray :=
  { dims := [("latitude", [0, 1]), ("longitude", [5, 6, 7])],
    data := .arr [.arr [.scalar 1, .scalar 2, .scalar 3],
                  .arr [.scalar 4, .scalar 5, .scalar 6]] }

/-- A concrete field already using the canonical short names. -/
def daShortNames : DataArray :=
  { dims := [("lat", [0, 1]), ("lon", [5, 6])],
    data := .arr [.arr [.scalar 1, .scalar 2], .arr [.scalar 3, .scalar 4]] }

theorem rename_step_spec_witness :
    ((renameStep daLongNames).data = daLongNames.data ∧
      (renameStep daLongNames).dimNames = ["lat", "lon"]) ∧
    renameStep daShortNames = daShortNames :=
  ⟨⟨(rename_step_spec daLongNames).1, (rename_step_spec daLongNames).2.1 rfl⟩,
    (rename_step_spec daShortNames).2.2 (by decide)⟩

/-! ## Slice-selection lemmas -/

theorem findIdx?_set_of_pos {α : Type} {p : α → Bool} {l : List α} {i : Nat} {x : α}
    (h : l.findIdx? p = some i) (hx : p x = true) :
    (l.set i x).findIdx? p = some i := by
  rw [List.findIdx?_eq_some_iff_getElem] at h ⊢
  obtain ⟨hlen, hpi, hprev⟩ := h
  refine ⟨by simpa using hlen, ?_, ?_⟩
  · rw [List.getElem_set_self]
    exact hx
  · intro j hji
    rw [List.getElem_set_ne (by omega)]
    exact hprev j hji

theorem coordsOf_set (dims : List (String × List Int)) (nd : NDData)
    (name nm : String) (c c' : List Int) (i : Nat)
    (hfind : List.findIdx? (fun p => p.1 == name) dims = some i)
    (hget : dims.get? i = some (nm, c)) :
    (DataArray.mk (dims.set i (nm, c')) nd).coordsOf name = some c' := by
  have h := List.findIdx?_eq_some_iff_getElem.mp hfind
  obtain ⟨hlen, hpi, _⟩ := h
  have hgi : dims[i] = (nm, c) := by
    rw [List.get?_eq_getElem?, List.getElem?_eq_getElem hlen] at hget
    exact Option.some.inj hget
  have hx : (((nm, c') : String × List Int).1 == name) = true := by
    have hnm : dims[i].1 = nm := by rw [hgi]
    rw [← hnm]
    exact hpi
  simp only [DataArray.coordsOf, findIdx?_set_of_pos hfind hx]
  rw [List.get?_eq_getElem?, List.getElem?_set_self (by simpa using hlen)]
  rfl

theorem selSlice_asc (da : DataArray) (name nm : String) (c : List Int)
    (i : Nat) (lo hi : Int)
    (hfind : List.findIdx? (fun p => p.1 == name) da.dims = some i)
    (hget : da.dims.get? i = some (nm, c))
    (hasc : isSortedAsc c = true) :
    da.selSlice name lo hi =
      some { dims := da.dims.set i (nm, c.filter (fun x => decide (lo ≤ x ∧ x ≤ hi))),
             data := NDData.filterAt i
               (fun j => decide (lo ≤ c.getD j 0 ∧ c.getD j 0 ≤ hi)) da.data } := by
  simp only [DataArray.selSlice, hfind, hget, hasc, if_true]

/-! ## Latitude step (C6) -/

/-- A field on a descending latitude grid. -/
def descGrid : DataArray :=
  { dims := [("lat", [30, 20, 10]), ("lon", [1])],
    data := .arr [.arr [.scalar 1], .arr [.scalar 2], .arr [.scalar 3]] }

/-- Counterexample to C6 as stated: on a descending latitude grid the
selector's latitude step returns the empty selection, not the inclusive
range of grid latitudes between the bounds (here all three grid points
lie between 10 and 30). -/
theorem lat_step_descending_cex :
    ((latStep descGrid 10 30).bind (fun d => d.coordsOf "lat")) = some [] ∧
    ([30, 20, 10].filter (fun x : Int => decide (10 ≤ x ∧ x ≤ 30))) = [30, 20, 10] ∧
    some ([] : List Int) ≠ some [30, 20, 10] := by
  refine ⟨rfl, rfl, by decide⟩

/-- C6 amended: on an ascending-sorted latitude axis, the latitude step
returns the inclusive range of grid latitudes between the bounds,
whichever of the two bounds is larger. -/
theorem lat_step_ascending_inclusive (da : DataArray) (nm : String)
    (c : List Int) (i : Nat) (a b : Int)
    (hfind : List.findIdx? (fun p => p.1 == "lat") da.dims = some i)
    (hget : da.dims.get? i = some (nm, c))
    (hasc : isSortedAsc c = true) :
    ∃ out, latStep da a b = some out ∧
      out.coordsOf "lat" =
        some (c.filter (fun x => decide (min a b ≤ x ∧ x ≤ max a b))) := by
  unfold latStep
  rcases le_or_lt a b with hab | hab
  · rw [if_pos hab, selSlice_asc da "lat" nm c i a b hfind hget hasc]
    refine ⟨_, rfl, ?_⟩
    rw [coordsOf_set da.dims _ "lat" nm c _ i hfind hget]
    simp only [min_eq_left hab, max_eq_right hab]
  · rw [if_neg (not_le.mpr hab), selSlice_asc da "lat" nm c i b a hfind hget hasc]
    refine ⟨_, rfl, ?_⟩
    rw [coordsOf_set da.dims _ "lat" nm c _ i hfind hget]
    simp only [min_eq_right hab.le, max_eq_left hab.le]

/-- A field on an ascending latitude grid. -/
def ascGrid : DataArray :=
  { dims := [("lat", [-20, -10, 0, 10, 20]), ("lon", [1])],
    data := .arr [.arr [.scalar 1], .arr [.scalar 2], .arr [.scalar 3],
                  .arr [.scalar 4], .arr [.scalar 5]] }

theorem lat_step_ascending_inclusive_witness :
    ∃ out, latStep ascGrid 10 (-10) = some out ∧
      out.coordsOf "lat" =
        some ([-20, -10, 0, 10, 20].filter
          (fun x : Int => decide (min 10 (-10) ≤ x ∧ x ≤ max 10 (-10)))) :=
  lat_step_ascending_inclusive ascGrid "lat" [-20, -10, 0, 10, 20] 0 10 (-10)
    rfl rfl rfl

/-! ## Longitude step: antimeridian crossing (C2, C9) -/

theorem eraseIdx_set_same {α : Type} :
    ∀ (l : List α) (i : Nat) (x : α), (l.set i x).eraseIdx i = l.eraseIdx i
  | [], _, _ => rfl
  | _ :: _, 0, _ => rfl
  | a :: l, i + 1, x => congrArg (a :: ·) (eraseIdx_set_same l i x)

theorem concatDim_of_set (dims : List (String × List Int)) (i : Nat)
    (nm name : String) (c1 c2 : List Int) (d1 d2 : NDData)
    (hfind : List.findIdx? (fun p => p.1 == name) dims = some i)
    (hlen : i < dims.length)
    (hnm : (nm == name) = true) :
    concatDim name ⟨dims.set i (nm, c1), d1⟩ ⟨dims.set i (nm, c2), d2⟩ =
      some ⟨dims.set i (nm, c1 ++ c2), NDData.appendAt i d1 d2⟩ := by
  have h1 : List.findIdx? (fun p => p.1 == name) (dims.set i (nm, c1)) = some i :=
    findIdx?_set_of_pos hfind hnm
  have h2 : List.findIdx? (fun p => p.1 == name) (dims.set i (nm, c2)) = some i :=
    findIdx?_set_of_pos hfind hnm
  have he : (dims.set i (nm, c1)).eraseIdx i = (dims.set i (nm, c2)).eraseIdx i := by
    rw [eraseIdx_set_same, eraseIdx_set_same]
  have hg1 : (dims.set i (nm, c1)).get? i = some (nm, c1) := by
    rw [List.get?_eq_getElem?, List.getElem?_set_self (by simpa using hlen)]
  have hg2 : (dims.set i (nm, c2)).get? i = some (nm, c2) := by
    rw [List.get?_eq_getElem?, List.getElem?_set_self (by simpa using hlen)]
  simp only [concatDim, h1, h2, hg1, hg2]
  rw [if_pos ⟨trivial, he⟩]
  simp only [List.set_set]

theorem lonStep_cross_spec (da : DataArray) (nm : String) (c : List Int)
    (i : Nat) (lon_min lon_max : Int)
    (hfind : List.findIdx? (fun p => p.1 == "lon") da.dims = some i)
    (hget : da.dims.get? i = some (nm, c))
    (hasc : isSortedAsc c = true)
    (hcross : lon_max < lon_min) :
    lonStep da lon_min lon_max =
      some { dims := da.dims.set i (nm,
               c.filter (fun x => decide (lon_min ≤ x ∧ x ≤ 180)) ++
               c.filter (fun x => decide (-180 ≤ x ∧ x ≤ lon_max))),
             data := NDData.appendAt i
               (NDData.filterAt i
                 (fun j => decide (lon_min ≤ c.getD j 0 ∧ c.getD j 0 ≤ 180)) da.data)
               (NDData.filterAt i
                 (fun j => decide (-180 ≤ c.getD j 0 ∧ c.getD j 0 ≤ lon_max)) da.data) } := by
  have hlen : i < da.dims.length := (List.findIdx?_eq_some_iff_getElem.mp hfind).1
  have hgi : da.dims[i] = (nm, c) := by
    rw [List.get?_eq_getElem?, List.getElem?_eq_getElem hlen] at hget
    exact Option.some.inj hget
  have hnm : (((nm, c) : String × List Int).1 == "lon") = true := by
    rw [← hgi]
    exact (List.findIdx?_eq_some_iff_getElem.mp hfind).2.1
  unfold lonStep
  rw [if_neg (not_le.mpr hcross)]
  rw [selSlice_asc da "lon" nm c i lon_min 180 hfind hget hasc,
      selSlice_asc da "lon" nm c i (-180) lon_max hfind hget hasc]
  show concatDim "lon" _ _ = _
  exact concatDim_of_set da.dims i nm "lon" _ _ _ _ hfind hlen hnm

/-- C2: for an antimeridian-crossing bbox (`lon_min > lon_max`) the
longitude step is exactly the concatenation of the `[lon_min, 180]`
sub-selection followed by the `[-180, lon_max]` sub-selection: the
resulting longitude axis is the eastern labels followed by the western
labels (not re-sorted), and its count is the sum of the two counts. -/
theorem lon_split_concat (da : DataArray) (nm : String) (c : List Int) (i : Nat)
    (lon_min lon_max : Int)
    (hfind : List.findIdx? (fun p => p.1 == "lon") da.dims = some i)
    (hget : da.dims.get? i = some (nm, c))
    (hasc : isSortedAsc c = true)
    (hcross : lon_max < lon_min) :
    (∃ left right, da.selSlice "lon" lon_min 180 = some left ∧
        da.selSlice "lon" (-180) lon_max = some right ∧
        lonStep da lon_min lon_max = concatDim "lon" left right) ∧
    (∃ out, lonStep da lon_min lon_max = some out ∧
        out.coordsOf "lon" =
          some (c.filter (fun x => decide (lon_min ≤ x ∧ x ≤ 180)) ++
                c.filter (fun x => decide (-180 ≤ x ∧ x ≤ lon_max))) ∧
        ∀ oc, out.coordsOf "lon" = some oc →
          oc.length = (c.filter (fun x => decide (lon_min ≤ x ∧ x ≤ 180))).length +
            (c.filter (fun x => decide (-180 ≤ x ∧ x ≤ lon_max))).length) := by
  have hL := selSlice_asc da "lon" nm c i lon_min 180 hfind hget hasc
  have hR := selSlice_asc da "lon" nm c i (-180) lon_max hfind hget hasc
  constructor
  · refine ⟨_, _, hL, hR, ?_⟩
    unfold lonStep
    rw [if_neg (not_le.mpr hcross)]
    simp only [hL, hR]
    rfl
  · refine ⟨_, lonStep_cross_spec da nm c i lon_min lon_max hfind hget hasc hcross,
      coordsOf_set da.dims _ "lon" nm c _ i hfind hget, ?_⟩
    intro oc hoc
    rw [coordsOf_set da.dims _ "lon" nm c _ i hfind hget] at hoc
    obtain rfl := Option.some.inj hoc
    exact (List.length_append _ _).symm ▸ List.length_append _ _

/-- An ascending longitude grid crossing test field. -/
def lonGridCross : DataArray :=
  { dims := [("lon", [-170, -160, 0, 160, 170])],
    data := .arr [.scalar 1, .scalar 2, .scalar 3, .scalar 4, .scalar 5] }

theorem lon_split_concat_witness :
    (∃ left right, lonGridCross.selSlice "lon" 160 180 = some left ∧
        lonGridCross.selSlice "lon" (-180) (-160) = some right ∧
        lonStep lonGridCross 160 (-160) = concatDim "lon" left right) ∧
    (∃ out, lonStep lonGridCross 160 (-160) = some out ∧
        out.coordsOf "lon" =
          some (([-170, -160, 0, 160, 170] : List Int).filter
                  (fun x => decide ((160 : Int) ≤ x ∧ x ≤ 180)) ++
                ([-170, -160, 0, 160, 170] : List Int).filter
                  (fun x => decide ((-180 : Int) ≤ x ∧ x ≤ -160))) ∧
        ∀ oc, out.coordsOf "lon" = some oc →
          oc.length = (([-170, -160, 0, 160, 170] : List Int).filter
              (fun x => decide ((160 : Int) ≤ x ∧ x ≤ 180))).length +
            (([-170, -160, 0, 160, 170] : List Int).filter
              (fun x => decide ((-180 : Int) ≤ x ∧ x ≤ -160))).length) :=
  lon_split_concat lonGridCross "lon" [-170, -160, 0, 160, 170] 0 160 (-160)
    rfl rfl rfl (by decide)

/-- C9: when both antimeridian sub-selections are empty, the longitude
step still returns a field (no error), whose longitude axis is empty. -/
theorem lon_split_empty (da : DataArray) (nm : String) (c : List Int) (i : Nat)
    (lon_min lon_max : Int)
    (hfind : List.findIdx? (fun p => p.1 == "lon") da.dims = some i)
    (hget : da.dims.get? i = some (nm, c))
    (hasc : isSortedAsc c = true)
    (hcross : lon_max < lon_min)
    (heast : c.filter (fun x => decide (lon_min ≤ x ∧ x ≤ 180)) = [])
    (hwest : c.filter (fun x => decide (-180 ≤ x ∧ x ≤ lon_max)) = []) :
    ∃ out, lonStep da lon_min lon_max = some out ∧ out.coordsOf "lon" = some [] := by
  refine ⟨_, lonStep_cross_spec da nm c i lon_min lon_max hfind hget hasc hcross, ?_⟩
  rw [coordsOf_set da.dims _ "lon" nm c _ i hfind hget, heast, hwest]
  rfl

/-- A one-point longitude grid missing both crossing segments. -/
def lonGridNarrow : DataArray :=
  { dims := [("lon", [0])], data := .arr [.scalar 1] }

theorem lon_split_empty_witness :
    ∃ out, lonStep lonGridNarrow 10 (-10) = some out ∧
      out.coordsOf "lon" = some [] :=
  lon_split_empty lonGridNarrow "lon" [0] 0 10 (-10) rfl rfl rfl (by decide) rfl rfl

/-! ## Time clamping (C1) -/

/-- C1: the standardizer clamps the target time before nearest-neighbor
selection, so any target below the covered minimum behaves exactly like
the minimum, and any target above the covered maximum exactly like the
maximum. -/
theorem standardize_time_clamped (ds : Dataset) (t0 t1 target : Int)
    (hmin : ds.time.min? = some t0) (hmax : ds.time.max? = some t1) :
    (target < t0 →
      standardize_anom_field ds target = standardize_anom_field ds t0) ∧
    (t1 < target →
      standardize_anom_field ds target = standardize_anom_field ds t1) := by
  have hmem : t1 ∈ ds.time := List.max?_mem (fun a b => max_choice a b) hmax
  have h01 : t0 ≤ t1 :=
    (List.le_min?_iff (fun a b c => le_min_iff) hmin).mp (le_refl t0) t1 hmem
  constructor
  · intro h
    have e1 : clampTime ds.time target = some t0 := by
      unfold clampTime
      rw [hmin, hmax]
      show some (if target < t0 then t0 else if t1 < target then t1 else target) =
        some t0
      rw [if_pos h]
    have e2 : clampTime ds.time t0 = some t0 := by
      unfold clampTime
      rw [hmin, hmax]
      show some (if t0 < t0 then t0 else if t1 < t0 then t1 else t0) = some t0
      rw [if_neg (lt_irrefl t0), if_neg (not_lt.mpr h01)]
    simp only [standardize_anom_field, e1, e2]
  · intro h
    have e1 : clampTime ds.time target = some t1 := by
      unfold clampTime
      rw [hmin, hmax]
      show some (if target < t0 then t0 else if t1 < target then t1 else target) =
        some t1
      rw [if_neg (not_lt.mpr (le_of_lt (lt_of_le_of_lt h01 h))), if_pos h]
    have e2 : clampTime ds.time t1 = some t1 := by
      unfold clampTime
      rw [hmin, hmax]
      show some (if t1 < t0 then t0 else if t1 < t1 then t1 else t1) = some t1
      rw [if_neg (not_lt.mpr h01), if_neg (lt_irrefl t1)]
    simp only [standardize_anom_field, e1, e2]

/-- A concrete dataset covering times 10 to 20. -/
def wds : Dataset :=
  { vars := [("anom",
      { dims := [("time", [10, 20]), ("lat", [0, 1]), ("lon", [5, 6])],
        data := .arr [.arr [.arr [.scalar 1, .scalar 2], .arr [.scalar 3, .scalar 4]],
                      .arr [.arr [.scalar 5, .scalar 6], .arr [.scalar 7, .scalar 8]]] })],
    time := [10, 20] }

theorem standardize_time_clamped_witness :
    standardize_anom_field wds 5 = standardize_anom_field wds 10 ∧
    standardize_anom_field wds 25 = standardize_anom_field wds 20 :=
  ⟨(standardize_time_clamped wds 10 20 5 rfl rfl).1 (by decide),
   (standardize_time_clamped wds 10 20 25 rfl rfl).2 (by decide)⟩

/-! ## Standardizer output dimensions (C3) -/

/-- A well-formed input dataset whose latitude axis has a single point. -/
def singleLatDs : Dataset :=
  { vars := [("anom",
      { dims := [("time", [0]), ("lat", [5]), ("lon", [1, 2])],
        data := .arr [.arr [.arr [.scalar 1, .scalar 2]]] })],
    time := [0] }

/-- Counterexample to C3 as stated: on a dataset using the canonical
naming convention but with a single-point latitude axis, the squeeze
step drops the size-1 `lat` dimension, so the standardizer's output is
1-dimensional (`lon` only), not a 2D `(lat, lon)` field. -/
theorem standardize_single_lat_cex :
    (standardize_anom_field singleLatDs 0).map DataArray.dimNames = some ["lon"] ∧
    some ["lon"] ≠ some ["lat", "lon"] :=
  ⟨rfl, by decide⟩

theorem foldl_nearestStep_some (t : Int) :
    ∀ (l : List (Nat × Int)) (q0 : Nat × Nat),
      ∃ q, l.foldl (nearestStep t) (some q0) = some q
  | [], q0 => ⟨q0, rfl⟩
  | p :: l, q0 => by
    rw [List.foldl_cons]
    unfold nearestStep
    dsimp only
    split
    · exact foldl_nearestStep_some t l _
    · exact foldl_nearestStep_some t l _

theorem nearestIdx_isSome (c : List Int) (t : Int) (h : c ≠ []) :
    ∃ j, nearestIdx c t = some j := by
  obtain ⟨x, xs, rfl⟩ := List.exists_cons_of_ne_nil h
  unfold nearestIdx
  have he : (x :: xs).enum = (0, x) :: xs.enumFrom 1 := rfl
  rw [he, List.foldl_cons]
  have hstep : nearestStep t none (0, x) = some (0, (x - t).natAbs) := rfl
  rw [hstep]
  obtain ⟨q, hq⟩ := foldl_nearestStep_some t (xs.enumFrom 1) (0, (x - t).natAbs)
  rw [hq]
  exact ⟨q.1, rfl⟩

theorem selTimeNearest_cons_time (tc : List Int)
    (rest : List (String × List Int)) (nd : NDData) (t : Int) (htc : tc ≠ []) :
    ∃ j, selTimeNearest ⟨("time", tc) :: rest, nd⟩ t =
      some ⟨rest, NDData.selAt 0 j nd⟩ := by
  obtain ⟨j, hj⟩ := nearestIdx_isSome tc t htc
  refine ⟨j, ?_⟩
  simp only [selTimeNearest, List.findIdx?_cons]
  norm_num
  simp only [hj]
  rfl

theorem standardize_tail (ds : Dataset) (target : Int) (tv : DataArray)
    (tc latc lonc : List Int) (latN lonN : String) (nd2 : NDData)
    (hvar : lookupVar ds "anom" = some tv)
    (hdep : depthStep tv = some ⟨[("time", tc), (latN, latc), (lonN, lonc)], nd2⟩)
    (hren : [renameName latN, renameName lonN] = ["lat", "lon"])
    (htc : tc ≠ []) (hts : ds.time ≠ [])
    (hlat : latc.length ≠ 1) (hlon : lonc.length ≠ 1) :
    ∃ out, standardize_anom_field ds target = some out ∧
      out.dimNames = ["lat", "lon"] := by
  obtain ⟨tmin, hmin⟩ : ∃ m, ds.time.min? = some m := by
    cases hm : ds.time.min? with
    | none => exact absurd (List.min?_eq_none_iff.mp hm) hts
    | some m => exact ⟨m, rfl⟩
  obtain ⟨tmax, hmax⟩ : ∃ m, ds.time.max? = some m := by
    cases hm : ds.time.max? with
    | none => exact absurd (List.max?_eq_none_iff.mp hm) hts
    | some m => exact ⟨m, rfl⟩
  have hclamp : clampTime ds.time target =
      some (if target < tmin then tmin
            else if tmax < target then tmax else target) := by
    unfold clampTime
    rw [hmin, hmax]
  obtain ⟨j, hsel⟩ :=
    selTimeNearest_cons_time tc [(latN, latc), (lonN, lonc)] nd2
      (if target < tmin then tmin else if tmax < target then tmax else target) htc
  refine ⟨renameStep (squeezeDrop
      ⟨[(latN, latc), (lonN, lonc)], NDData.selAt 0 j nd2⟩), ?_, ?_⟩
  · simp only [standardize_anom_field, hvar, hdep, hclamp, hsel,
      Option.bind_eq_bind, Option.some_bind]
  · rw [renameStep_dimNames]
    have hsq : (squeezeDrop
        ⟨[(latN, latc), (lonN, lonc)], NDData.selAt 0 j nd2⟩).dims
          = [(latN, latc), (lonN, lonc)] := by
      simp [squeezeDrop, List.filter_cons, bne_iff_ne, hlat, hlon]
    unfold DataArray.dimNames
    rw [hsq]
    simpa using hren

/-- C3 amended: for every input dataset following one of the two
coordinate-naming conventions and one of the depth-dimension
conventions, with a nonempty time axis, a nonempty depth axis when one
exists, and latitude/longitude axes whose size is not 1 (a size-1 axis
is dropped by the squeeze step), the standardizer's output has
dimensions exactly `lat`, `lon`. -/
theorem standardize_dims_lat_lon (ds : Dataset) (target : Int)
    (tv : DataArray) (tc latc lonc : List Int)
    (dep : List (String × List Int)) (latN lonN : String)
    (hvar : lookupVar ds "anom" = some tv)
    (hdims : tv.dims = ("time", tc) :: (dep ++ [(latN, latc), (lonN, lonc)]))
    (hnames : (latN = "lat" ∧ lonN = "lon") ∨
      (latN = "latitude" ∧ lonN = "longitude"))
    (hdep : dep = [] ∨ ∃ d dc, dep = [(d, dc)] ∧ d ∈ depthNames ∧ dc ≠ [])
    (htc : tc ≠ []) (hts : ds.time ≠ [])
    (hlat : latc.length ≠ 1) (hlon : lonc.length ≠ 1) :
    ∃ out, standardize_anom_field ds target = some out ∧
      out.dimNames = ["lat", "lon"] := by
  obtain ⟨tdims, tdata⟩ := tv
  dsimp only at hdims
  subst hdims
  have hren : [renameName latN, renameName lonN] = ["lat", "lon"] := by
    rcases hnames with ⟨h1, h2⟩ | ⟨h1, h2⟩ <;> subst h1 <;> subst h2 <;> rfl
  rcases hdep with rfl | ⟨d, dc, rfl, hdmem, hdc⟩
  · refine standardize_tail ds target _ tc latc lonc latN lonN tdata hvar ?_
      hren htc hts hlat hlon
    rcases hnames with ⟨h1, h2⟩ | ⟨h1, h2⟩ <;> subst h1 <;> subst h2 <;> rfl
  · have hdcne : ¬(dc.isEmpty = true) := by
      simpa [List.isEmpty_iff] using hdc
    refine standardize_tail ds target _ tc latc lonc latN lonN
      (NDData.selAt 1 0 tdata) hvar ?_ hren htc hts hlat hlon
    simp only [depthNames, List.mem_cons, List.not_mem_nil, or_false] at hdmem
    rcases hnames with ⟨h1, h2⟩ | ⟨h1, h2⟩ <;> subst h1 <;> subst h2 <;>
      rcases hdmem with rfl | rfl | rfl <;>
      · change (if dc.isEmpty then none else _) = _
        rw [if_neg hdcne]
        rfl

/-- A concrete dataset with a depth axis and the long coordinate names. -/
def fullDs : Dataset :=
  { vars := [("anom",
      { dims := [("time", [0, 1]), ("zlev", [0]),
                 ("latitude", [10, 20, 30]), ("longitude", [100, 110])],
        data := .arr [
          .arr [.arr [.arr [.scalar 1, .scalar 2], .arr [.scalar 3, .scalar 4],
                      .arr [.scalar 5, .scalar 6]]],
          .arr [.arr [.arr [.scalar 7, .scalar 8], .arr [.scalar 9, .scalar 10],
                      .arr [.scalar 11, .scalar 12]]]] })],
    time := [0, 1] }

theorem standardize_dims_lat_lon_witness :
    ∃ out, standardize_anom_field fullDs 1 = some out ∧
      out.dimNames = ["lat", "lon"] :=
  standardize_dims_lat_lon fullDs 1 _ [0, 1] [10, 20, 30] [100, 110]
    [("zlev", [0])] "latitude" "longitude" rfl rfl
    (Or.inr ⟨rfl, rfl⟩)
    (Or.inr ⟨"zlev", [0], rfl, by decide, by decide⟩)
    (by decide) (by decide) (by decide) (by decide)
